import Mathlib

/-!
Shallow embedding of the bmslib monitoring primitive (src/monitor/level.rs,
src/common/framework.rs, src/common/fixed_width.rs).

The Rust code is generic over `FixedWidth` types (8/16/32-bit signed and
unsigned integers), all of which carry a total order used only through
comparisons; the embedding is therefore generic over a `LinearOrder`.
The `Cell<LevelState>` interior mutability becomes explicit state passing:
stateful methods return the updated monitor.
-/

namespace Bmslib

/-- Two-valued classification, `level_simple::LevelState` in the source. -/
inductive LevelState where
  | OVER : LevelState
  | UNDER : LevelState
deriving DecidableEq, Repr

namespace level_simple

/-- Embedding of `level_simple::check`: `if val > limit { OVER } else { UNDER }`. -/
def check {T : Type} [LinearOrder T] (val limit : T) : LevelState :=
  if val > limit then LevelState.OVER else LevelState.UNDER

end level_simple

/-- Embedding of `level_hyst::LevelHyst<T>`: the `Cell<LevelState>` field becomes
a plain field, mutated by returning an updated structure. -/
structure LevelHyst (T : Type) where
  level_state : LevelState
  limit : T
  hyst : T
deriving DecidableEq, Repr

namespace LevelHyst

/-- Embedding of `LevelHyst::new`: if `set < reset` then `limit = reset, hyst = set`
else `limit = set, hyst = reset`; the state is set from `initial`. -/
def new {T : Type} [LinearOrder T] (set reset : T) (initial : LevelState) : LevelHyst T :=
  if set < reset then
    ⟨initial, reset, set⟩
  else
    ⟨initial, set, reset⟩

/-- Embedding of `LevelHyst::set_state`: `self.level_state.replace(state)`. -/
def set_state {T : Type} (m : LevelHyst T) (state : LevelState) : LevelHyst T :=
  ⟨state, m.limit, m.hyst⟩

/-- Embedding of `LevelHyst::get_state`: `self.level_state.get()`. -/
def get_state {T : Type} (m : LevelHyst T) : LevelState :=
  m.level_state

/-- Embedding of `LevelHyst::check`: branch on the current state, compare against
`hyst` (when OVER) or `limit` (when UNDER), store the result, return it.
The pair is (returned classification, monitor after the call). -/
def check {T : Type} [LinearOrder T] (m : LevelHyst T) (val : T) : LevelState × LevelHyst T :=
  let a : LevelState :=
    match m.level_state with
    | LevelState.OVER => level_simple.check val m.hyst
    | LevelState.UNDER => level_simple.check val m.limit
  (a, ⟨a, m.limit, m.hyst⟩)

/-- Monitor state after a sequence of `check` calls, first element first. -/
def runChecks {T : Type} [LinearOrder T] (m : LevelHyst T) : List T → LevelHyst T
  | [] => m
  | v :: vs => runChecks (m.check v).2 vs

/-- Classifications returned by a sequence of `check` calls, first element first. -/
def runOutputs {T : Type} [LinearOrder T] (m : LevelHyst T) : List T → List LevelState
  | [] => []
  | v :: vs => (m.check v).1 :: runOutputs (m.check v).2 vs

end LevelHyst

/-- Embedding of `framework::SensorGroupInner<T>`. -/
structure SensorGroupInner (T : Type) where
  min : T
  max : T

/-- Embedding of `SensorGroupInner::get_max`. -/
def SensorGroupInner.get_max {T : Type} (s : SensorGroupInner T) : T :=
  s.max

/-- Embedding of `SensorGroupInner::get_min`. -/
def SensorGroupInner.get_min {T : Type} (s : SensorGroupInner T) : T :=
  s.min

/-- Embedding of `framework::SensorInner<T>`. -/
structure SensorInner (T : Type) where
  val : T

/-- Embedding of `impl Observer<T, SensorGroupInner<T>> for LevelHyst<T>`:
`self.level_state.replace(self.check(sender.get_max())); let _ = val;`.
The `check` call already stores its result; `replace` stores it once more. -/
def LevelHyst.dispatchGroup {T : Type} [LinearOrder T]
    (m : LevelHyst T) (sender : SensorGroupInner T) (val : T) : LevelHyst T :=
  let r := m.check sender.get_max
  let _ := val
  ⟨r.1, r.2.limit, r.2.hyst⟩

/-- Embedding of `impl Observer<T, SensorInner<T>> for LevelHyst<T>`:
`self.level_state.replace(self.check(sender.val)); let _ = val;`. -/
def LevelHyst.dispatchSensor {T : Type} [LinearOrder T]
    (m : LevelHyst T) (sender : SensorInner T) (val : T) : LevelHyst T :=
  let r := m.check sender.val
  let _ := val
  ⟨r.1, r.2.limit, r.2.hyst⟩

/-! Helper lemmas shared by the claim theorems. -/

/-- The returned classification of `check` is its stored classification. -/
theorem LevelHyst.check_fst_eq_snd_state {T : Type} [LinearOrder T]
    (m : LevelHyst T) (v : T) : (m.check v).2.level_state = (m.check v).1 := by
  cases m with
  | mk st l h => cases st <;> rfl

/-- The `check` call leaves `limit` unchanged. -/
theorem LevelHyst.check_limit {T : Type} [LinearOrder T]
    (m : LevelHyst T) (v : T) : (m.check v).2.limit = m.limit := by
  cases m with
  | mk st l h => cases st <;> rfl

/-- The `check` call leaves `hyst` unchanged. -/
theorem LevelHyst.check_hyst {T : Type} [LinearOrder T]
    (m : LevelHyst T) (v : T) : (m.check v).2.hyst = m.hyst := by
  cases m with
  | mk st l h => cases st <;> rfl

/-- From state OVER, `check` compares against `hyst`. -/
theorem LevelHyst.check_of_over {T : Type} [LinearOrder T]
    (m : LevelHyst T) (v : T) (hs : m.level_state = LevelState.OVER) :
    (m.check v).1 = level_simple.check v m.hyst := by
  cases m with
  | mk st l h => cases st <;> simp_all [LevelHyst.check]

/-- From state UNDER, `check` compares against `limit`. -/
theorem LevelHyst.check_of_under {T : Type} [LinearOrder T]
    (m : LevelHyst T) (v : T) (hs : m.level_state = LevelState.UNDER) :
    (m.check v).1 = level_simple.check v m.limit := by
  cases m with
  | mk st l h => cases st <;> simp_all [LevelHyst.check]

/-- A value strictly above the threshold classifies as OVER. -/
theorem level_simple.check_eq_over {T : Type} [LinearOrder T]
    (val limit : T) (h : limit < val) : level_simple.check val limit = LevelState.OVER := by
  simp [level_simple.check, h]

/-- A value at or below the threshold classifies as UNDER. -/
theorem level_simple.check_eq_under {T : Type} [LinearOrder T]
    (val limit : T) (h : val ≤ limit) : level_simple.check val limit = LevelState.UNDER := by
  simp [level_simple.check, not_lt_of_le h]

/-- A run of checks all strictly above `hyst` keeps an OVER monitor in OVER. -/
theorem LevelHyst.runChecks_over {T : Type} [LinearOrder T]
    (p : List T) (m : LevelHyst T) (hs : m.level_state = LevelState.OVER)
    (hv : ∀ v ∈ p, m.hyst < v) :
    (m.runChecks p).level_state = LevelState.OVER := by
  induction p generalizing m with
  | nil => exact hs
  | cons v vs ih =>
      have h1 : (m.check v).2.level_state = LevelState.OVER := by
        rw [LevelHyst.check_fst_eq_snd_state, LevelHyst.check_of_over m v hs]
        exact level_simple.check_eq_over v m.hyst (hv v (List.mem_cons_self v vs))
      have h2 : ∀ w ∈ vs, (m.check v).2.hyst < w := by
        intro w hw
        rw [LevelHyst.check_hyst]
        exact hv w (List.mem_cons_of_mem v hw)
      exact ih (m.check v).2 h1 h2

/-- A run of checks all at or below `limit` keeps an UNDER monitor in UNDER. -/
theorem LevelHyst.runChecks_under {T : Type} [LinearOrder T]
    (p : List T) (m : LevelHyst T) (hs : m.level_state = LevelState.UNDER)
    (hv : ∀ v ∈ p, v ≤ m.limit) :
    (m.runChecks p).level_state = LevelState.UNDER := by
  induction p generalizing m with
  | nil => exact hs
  | cons v vs ih =>
      have h1 : (m.check v).2.level_state = LevelState.UNDER := by
        rw [LevelHyst.check_fst_eq_snd_state, LevelHyst.check_of_under m v hs]
        exact level_simple.check_eq_under v m.limit (hv v (List.mem_cons_self v vs))
      have h2 : ∀ w ∈ vs, w ≤ (m.check v).2.limit := by
        intro w hw
        rw [LevelHyst.check_limit]
        exact hv w (List.mem_cons_of_mem v hw)
      exact ih (m.check v).2 h1 h2

/-- The group dispatch is a plain `check` on the context's `max` field. -/
theorem LevelHyst.dispatchGroup_eq {T : Type} [LinearOrder T]
    (m : LevelHyst T) (sender : SensorGroupInner T) (v : T) :
    m.dispatchGroup sender v = (m.check sender.max).2 := by
  cases m with
  | mk st l h => cases st <;> rfl

/-- The sensor dispatch is a plain `check` on the context's `val` field. -/
theorem LevelHyst.dispatchSensor_eq {T : Type} [LinearOrder T]
    (m : LevelHyst T) (sender : SensorInner T) (v : T) :
    m.dispatchSensor sender v = (m.check sender.val).2 := by
  cases m with
  | mk st l h => cases st <;> rfl

/-! Claim theorems. -/

/-- C1: for every monitor and value, `check v` computes the new classification
by comparing against `hyst` when the current state is OVER and against `limit`
when it is UNDER, stores that classification unconditionally, and returns it,
so `get_state` right after `check v` equals the returned value. -/
theorem C1_check_transition {T : Type} [LinearOrder T] (m : LevelHyst T) (v : T) :
    (m.check v).1 = (match m.level_state with
      | LevelState.OVER => level_simple.check v m.hyst
      | LevelState.UNDER => level_simple.check v m.limit) ∧
    (m.check v).2.level_state = (m.check v).1 ∧
    (m.check v).2.get_state = (m.check v).1 := by
  cases m with
  | mk st l h => cases st <;> exact ⟨rfl, rfl, rfl⟩

/-- C2: the stateless `level_simple.check val limit` returns OVER iff
`val > limit`, returns UNDER otherwise, and in particular classifies the
boundary value `check val val` as UNDER. -/
theorem C2_check_over_iff {T : Type} [LinearOrder T] (val limit : T) :
    (level_simple.check val limit = LevelState.OVER ↔ val > limit) ∧
    (level_simple.check val limit ≠ LevelState.OVER →
      level_simple.check val limit = LevelState.UNDER) ∧
    level_simple.check val val = LevelState.UNDER := by
  refine ⟨?_, ?_, ?_⟩
  · by_cases h : val > limit <;> simp [level_simple.check, h]
  · by_cases h : val > limit <;> simp [level_simple.check, h]
  · simp [level_simple.check]

/-- C3: the constructor establishes the invariant `hyst ≤ limit` by normalizing
its two threshold arguments, and `check`, `set_state` and `get_state` preserve
it because none of them changes `limit` or `hyst`. -/
theorem C3_hyst_le_limit_invariant {T : Type} [LinearOrder T]
    (a b : T) (i : LevelState) (m : LevelHyst T) (v : T) (s : LevelState) :
    (LevelHyst.new a b i).hyst ≤ (LevelHyst.new a b i).limit ∧
    ((m.check v).2.limit = m.limit ∧ (m.check v).2.hyst = m.hyst) ∧
    ((m.set_state s).limit = m.limit ∧ (m.set_state s).hyst = m.hyst) := by
  refine ⟨?_, ⟨m.check_limit v, m.check_hyst v⟩, ⟨rfl, rfl⟩⟩
  by_cases h : a < b
  · simp [LevelHyst.new, h, le_of_lt h]
  · simp [LevelHyst.new, h, le_of_not_lt h]

/-- C4: once in state OVER, any sequence of checks whose values are all strictly
greater than `hyst` leaves the state OVER after every call (i.e. after every
prefix of the sequence); once in state UNDER, any sequence of checks with
values all at most `limit` leaves the state UNDER after every call. -/
theorem C4_no_chatter {T : Type} [LinearOrder T] (m : LevelHyst T) (l : List T) :
    (m.level_state = LevelState.OVER → (∀ v ∈ l, m.hyst < v) →
      ∀ p s, l = p ++ s → (m.runChecks p).level_state = LevelState.OVER) ∧
    (m.level_state = LevelState.UNDER → (∀ v ∈ l, v ≤ m.limit) →
      ∀ p s, l = p ++ s → (m.runChecks p).level_state = LevelState.UNDER) := by
  constructor
  · intro hs hv p s hl
    refine LevelHyst.runChecks_over p m hs ?_
    intro w hw
    exact hv w (hl ▸ List.mem_append_left s hw)
  · intro hs hv p s hl
    refine LevelHyst.runChecks_under p m hs ?_
    intro w hw
    exact hv w (hl ▸ List.mem_append_left s hw)

/-- C4 witness: concrete monitors run concrete in-band sequences without
leaving their state. -/
theorem C4_no_chatter_witness :
    ((⟨LevelState.OVER, 100, 70⟩ : LevelHyst Int).level_state = LevelState.OVER ∧
      ((⟨LevelState.OVER, 100, 70⟩ : LevelHyst Int).runChecks [71, 200, 71]).level_state =
        LevelState.OVER) ∧
    ((⟨LevelState.UNDER, 100, 70⟩ : LevelHyst Int).level_state = LevelState.UNDER ∧
      ((⟨LevelState.UNDER, 100, 70⟩ : LevelHyst Int).runChecks [100, 5, 71]).level_state =
        LevelState.UNDER) := by
  constructor
  · exact ⟨rfl, (C4_no_chatter ⟨LevelState.OVER, 100, 70⟩ [71, 200, 71]).1 rfl
      (by decide) [71, 200, 71] [] rfl⟩
  · exact ⟨rfl, (C4_no_chatter ⟨LevelState.UNDER, 100, 70⟩ [100, 5, 71]).2 rfl
      (by decide) [100, 5, 71] [] rfl⟩

/-- C5: swapping the two threshold arguments of the constructor yields a monitor
with identical `limit` and `hyst` fields and identical observable behavior
(returned classifications and stored states) for every subsequent sequence of
`check` calls; in fact the two monitors are equal. -/
theorem C5_new_comm {T : Type} [LinearOrder T] (a b : T) (i : LevelState) :
    LevelHyst.new a b i = LevelHyst.new b a i ∧
    (LevelHyst.new a b i).limit = (LevelHyst.new b a i).limit ∧
    (LevelHyst.new a b i).hyst = (LevelHyst.new b a i).hyst ∧
    ∀ l : List T,
      (LevelHyst.new a b i).runOutputs l = (LevelHyst.new b a i).runOutputs l ∧
      (LevelHyst.new a b i).runChecks l = (LevelHyst.new b a i).runChecks l := by
  have key : LevelHyst.new a b i = LevelHyst.new b a i := by
    rcases lt_trichotomy a b with h | h | h
    · simp [LevelHyst.new, h, not_lt_of_lt h]
    · simp [LevelHyst.new, h]
    · simp [LevelHyst.new, h, not_lt_of_lt h]
  exact ⟨key, by rw [key], by rw [key], fun l => ⟨by rw [key], by rw [key]⟩⟩

/-- C6: both Observer implementations are equivalent to a plain `check` on one
context field and ignore the scalar value argument: group dispatch leaves the
monitor in the state `check max` produces (for every value argument and every
`min` field), and sensor dispatch leaves it in the state `check val` produces
(for every value argument). -/
theorem C6_dispatch_is_check {T : Type} [LinearOrder T]
    (m : LevelHyst T) (mn mx w v : T) :
    m.dispatchGroup ⟨mn, mx⟩ v = (m.check mx).2 ∧
    m.dispatchSensor ⟨w⟩ v = (m.check w).2 :=
  ⟨m.dispatchGroup_eq ⟨mn, mx⟩ v, m.dispatchSensor_eq ⟨w⟩ v⟩

/-- C7: the stateless classification is monotone in the value argument: if a
smaller value already classifies as OVER against some limit, every larger value
does too. -/
theorem C7_check_monotone {T : Type} [LinearOrder T] (val1 val2 limit : T)
    (h : val2 < val1) (ho : level_simple.check val2 limit = LevelState.OVER) :
    level_simple.check val1 limit = LevelState.OVER := by
  have h2 : limit < val2 := by
    by_contra hc
    rw [level_simple.check_eq_under val2 limit (le_of_not_lt hc)] at ho
    exact LevelState.noConfusion ho
  exact level_simple.check_eq_over val1 limit (lt_trans h2 h)

/-- C7 witness: monotonicity instantiated at val1 = 3, val2 = 2, limit = 1. -/
theorem C7_check_monotone_witness :
    (2 : Int) < 3 ∧ level_simple.check (2 : Int) 1 = LevelState.OVER ∧
    level_simple.check (3 : Int) 1 = LevelState.OVER :=
  ⟨by decide, by decide, C7_check_monotone 3 2 1 (by decide) (by decide)⟩

/-- C8 counterexample: the claim quantifies over every monitor in state OVER,
but a monitor with `hyst < 5` (here `new 1 2 OVER`, so `hyst = 1`) stays OVER
on `dispatchGroup {min := 5, max := 5}` because `5 > 1`, instead of moving to
UNDER as the claim states. -/
theorem C8_counterexample :
    (LevelHyst.new (1 : Int) 2 LevelState.OVER).level_state = LevelState.OVER ∧
    ((LevelHyst.new (1 : Int) 2 LevelState.OVER).dispatchGroup
        ⟨5, 5⟩ 0).level_state ≠ LevelState.UNDER := by
  decide

/-- C8 (amended): for every monitor in state OVER whose `hyst` is at least 5
and whose `limit` is below 101, a group dispatch with context
`{min := 5, max := 5}` (any min would do, see C6; here the test's min) and any
value argument moves it to UNDER, and a subsequent group dispatch with context
`{min := 5, max := 101}` and any value argument moves it back to OVER. -/
theorem C8_dispatch_scenario (m : LevelHyst Int)
    (hs : m.level_state = LevelState.OVER)
    (h5 : 5 ≤ m.hyst) (h101 : m.limit < 101) (mn1 mn2 v1 v2 : Int) :
    (m.dispatchGroup ⟨mn1, 5⟩ v1).level_state = LevelState.UNDER ∧
    ((m.dispatchGroup ⟨mn1, 5⟩ v1).dispatchGroup
        ⟨mn2, 101⟩ v2).level_state = LevelState.OVER := by
  have hfirst : (m.dispatchGroup ⟨mn1, 5⟩ v1).level_state = LevelState.UNDER := by
    rw [m.dispatchGroup_eq ⟨mn1, 5⟩ v1, LevelHyst.check_fst_eq_snd_state,
      LevelHyst.check_of_over m 5 hs]
    exact level_simple.check_eq_under 5 m.hyst h5
  refine ⟨hfirst, ?_⟩
  rw [(m.dispatchGroup ⟨mn1, 5⟩ v1).dispatchGroup_eq ⟨mn2, 101⟩ v2,
    LevelHyst.check_fst_eq_snd_state,
    LevelHyst.check_of_under _ 101 hfirst]
  have hlim : (m.dispatchGroup ⟨mn1, 5⟩ v1).limit = m.limit := by
    rw [m.dispatchGroup_eq ⟨mn1, 5⟩ v1, LevelHyst.check_limit]
  rw [hlim]
  exact level_simple.check_eq_over 101 m.limit h101

/-- C8 witness: the amended scenario instantiated at the test's monitor
`new(70, 100, OVER)`. -/
theorem C8_dispatch_scenario_witness :
    (LevelHyst.new (70 : Int) 100 LevelState.OVER).level_state = LevelState.OVER ∧
    (5 : Int) ≤ (LevelHyst.new (70 : Int) 100 LevelState.OVER).hyst ∧
    (LevelHyst.new (70 : Int) 100 LevelState.OVER).limit < 101 ∧
    ((LevelHyst.new (70 : Int) 100 LevelState.OVER).dispatchGroup
        ⟨5, 5⟩ 0).level_state = LevelState.UNDER ∧
    (((LevelHyst.new (70 : Int) 100 LevelState.OVER).dispatchGroup
        ⟨5, 5⟩ 0).dispatchGroup ⟨5, 101⟩ 0).level_state = LevelState.OVER :=
  ⟨by decide, by decide, by decide,
    (C8_dispatch_scenario (LevelHyst.new 70 100 LevelState.OVER)
      (by decide) (by decide) (by decide) 5 5 0 0).1,
    (C8_dispatch_scenario (LevelHyst.new 70 100 LevelState.OVER)
      (by decide) (by decide) (by decide) 5 5 0 0).2⟩

/-- C9: `set_state c` unconditionally replaces the stored classification with
`c`, regardless of the current state and with no threshold comparison, leaving
`limit` and `hyst` unchanged; `get_state` returns the stored classification and
modifies nothing (in this pure embedding it returns no updated monitor at all). -/
theorem C9_set_get_frame {T : Type} (m : LevelHyst T) (c : LevelState) :
    (m.set_state c).level_state = c ∧
    (m.set_state c).limit = m.limit ∧
    (m.set_state c).hyst = m.hyst ∧
    m.get_state = m.level_state :=
  ⟨rfl, rfl, rfl, rfl⟩

/-- C10: for a monitor satisfying `hyst ≤ limit` (as every constructed monitor
does), the result of `check v` is independent of the current classification
outside the dead band: above `limit` it is OVER from either state, at or below
`hyst` it is UNDER from either state; inside the dead band `(hyst, limit]` it
equals the current state; and when `hyst = limit` (a monitor built with
`set == reset`) `check` agrees with the stateless `level_simple.check v limit`
from every state. -/
theorem C10_deadband {T : Type} [LinearOrder T] (m : LevelHyst T) (v : T)
    (h : m.hyst ≤ m.limit) :
    (m.limit < v → (m.check v).1 = LevelState.OVER) ∧
    (v ≤ m.hyst → (m.check v).1 = LevelState.UNDER) ∧
    (m.hyst < v → v ≤ m.limit → (m.check v).1 = m.level_state) ∧
    (m.hyst = m.limit → (m.check v).1 = level_simple.check v m.limit) := by
  cases m with
  | mk st l hy =>
      simp only at h
      cases st
      case OVER =>
        have heq : ((⟨LevelState.OVER, l, hy⟩ : LevelHyst T).check v).1 =
            level_simple.check v hy := rfl
        rw [heq]
        refine ⟨?_, ?_, ?_, ?_⟩
        · intro hv
          exact level_simple.check_eq_over v hy (lt_of_le_of_lt h hv)
        · intro hv
          exact level_simple.check_eq_under v hy hv
        · intro hv _
          exact level_simple.check_eq_over v hy hv
        · intro he
          simp only at he
          rw [he]
      case UNDER =>
        have heq : ((⟨LevelState.UNDER, l, hy⟩ : LevelHyst T).check v).1 =
            level_simple.check v l := rfl
        rw [heq]
        refine ⟨?_, ?_, ?_, fun _ => rfl⟩
        · intro hv
          exact level_simple.check_eq_over v l hv
        · intro hv
          exact level_simple.check_eq_under v l (le_trans hv h)
        · intro _ hv
          exact level_simple.check_eq_under v l hv

/-- C10 witness: a monitor with `hyst = 70 ≤ 100 = limit` in state UNDER
classifies 101 as OVER. -/
theorem C10_deadband_witness :
    (70 : Int) ≤ 100 ∧ (100 : Int) < 101 ∧
    ((⟨LevelState.UNDER, 100, 70⟩ : LevelHyst Int).check 101).1 = LevelState.OVER :=
  ⟨by decide, by decide,
    (C10_deadband ⟨LevelState.UNDER, 100, 70⟩ 101 (by decide)).1 (by decide)⟩

end Bmslib
